import Mathlib

/-!
Shallow embedding of the stc2go Sell-To-Cover (STC) calculation engine.

Go `float64` values are modelled as exact rationals (`ℚ`): every monetary
quantity in the program is a small decimal fraction and every property under
study is an exact algebraic identity of the computation, which the rational
embedding captures.  Go stdlib numeric helpers (`math.Round`, `math.Ceil`,
`math.Max`) are modelled by their documented exact semantics.  The
pointer-receiver methods of `Calculator` are embedded as explicit
state-passing functions.
-/

namespace STC

/-- Go `math.Round`: nearest integer, ties rounding half away from zero,
i.e. `sign(x) * Floor(|x| + 0.5)`. -/
def goRound (x : ℚ) : ℚ :=
  if x < 0 then -(((⌊-x + 1/2⌋ : ℤ) : ℚ)) else ((⌊x + 1/2⌋ : ℤ) : ℚ)

/-- `roundMoney` from `config.go`: `math.Round(val*100) / 100`. -/
def roundMoney (val : ℚ) : ℚ := goRound (val * 100) / 100

/-- Go `math.Ceil`: least integer greater than or equal to the argument,
returned as a (rational-embedded) float. -/
def goCeil (x : ℚ) : ℚ := ((⌈x⌉ : ℤ) : ℚ)

/-- Go `math.Max` on the (NaN-free) rational model. -/
def goMax (a b : ℚ) : ℚ := max a b

/-- `TaxRates` from `config.go`. -/
structure TaxRates where
  Federal : ℚ
  Medicare : ℚ
  SocialSec : ℚ
  State : ℚ
  LocalSDI : ℚ
deriving DecidableEq

/-- `BrokerFees` from `config.go` (`FlatFee` is the payment processing fee). -/
structure BrokerFees where
  CommissionRate : ℚ
  MinimumFee : ℚ
  FlatFee : ℚ
deriving DecidableEq

/-- `Config` from `config.go`. -/
structure Config where
  taxRates : TaxRates
  brokerFees : BrokerFees
deriving DecidableEq

/-- `Input` from `config.go`: user inputs for the option-exercise STC. -/
structure Input where
  ExercisePrice : ℚ
  ExercisedShares : ℚ
  FMV : ℚ
deriving DecidableEq

/-- `RSUInput` from `config.go`: user inputs for the RSU STC. -/
structure RSUInput where
  SharesReleased : ℚ
  VestPrice : ℚ
  SalePrice : ℚ
deriving DecidableEq

/-- `Result` from `config.go`: every value computed by `Calculate`. -/
structure Result where
  ExercisePrice : ℚ
  ExercisedShares : ℚ
  FMV : ℚ
  OptionCost : ℚ
  TaxableGain : ℚ
  FederalTax : ℚ
  MedicareTax : ℚ
  SocialSecTax : ℚ
  StateTax : ℚ
  LocalSDITax : ℚ
  TotalTax : ℚ
  BrokerCommission : ℚ
  BrokerFees : ℚ
  TotalCosts : ℚ
  SharesToSell : ℚ
  EstGrossProceeds : ℚ
  Residual : ℚ
  NetShares : ℚ
deriving DecidableEq

/-- `RSUResult` from `config.go`: every value computed by `CalculateRSU`. -/
structure RSUResult where
  SharesReleased : ℚ
  VestPrice : ℚ
  SalePrice : ℚ
  TaxableGain : ℚ
  FederalTax : ℚ
  MedicareTax : ℚ
  SocialSecTax : ℚ
  StateTax : ℚ
  LocalSDITax : ℚ
  TotalTax : ℚ
  BrokerCommission : ℚ
  FlatFee : ℚ
  TotalFees : ℚ
  TotalCosts : ℚ
  SharesToSell : ℚ
  EstGrossProceeds : ℚ
  Residual : ℚ
  NetShares : ℚ
deriving DecidableEq

/-- The configuration built by `NewDefaultCalculator` in `config.go`. -/
def defaultConfig : Config :=
  { taxRates :=
      { Federal := 22/100
        Medicare := 145/10000
        SocialSec := 62/1000
        State := 0
        LocalSDI := 0 }
    brokerFees :=
      { CommissionRate := 3/100
        MinimumFee := 25
        FlatFee := 0 } }

/-- The four loop-local quantities that `Calculate` records into the result
when the share-count iteration reaches its fixed point. -/
structure OptionRec where
  shares : ℚ
  commission : ℚ
  fee : ℚ
  total : ℚ
deriving DecidableEq

/-- The `for i := 0; i < maxIterations; i++` loop of `Calculate`
(`config.go`).  Each fuel step is one Go iteration: it computes the
commission for the current share count, applies the minimum-fee floor,
recomputes the total liability as `OptionCost + TotalTax + appliedFee`
(the flat fee is NOT part of this sum in the source), and takes the
ceiling of `total / FMV` as the new share count.  On stabilisation it
returns the recorded quadruple (the Go `break`); on fuel exhaustion it
returns `none` together with the last share count held by the loop
variable. -/
def optionLoop (cfg : Config) (optionCost totalTax fmv : ℚ) :
    Nat → ℚ → ℚ × Option OptionRec
  | 0, sharesToSell => (sharesToSell, none)
  | fuel + 1, sharesToSell =>
    let brokerCommission := sharesToSell * cfg.brokerFees.CommissionRate
    let brokerFeesApplied := goMax brokerCommission cfg.brokerFees.MinimumFee
    let totalCosts := optionCost + totalTax + brokerFeesApplied
    let newSharesToSell := goCeil (totalCosts / fmv)
    if newSharesToSell = sharesToSell then
      (sharesToSell, some ⟨sharesToSell, brokerCommission, brokerFeesApplied, totalCosts⟩)
    else
      optionLoop cfg optionCost totalTax fmv fuel newSharesToSell

/-- `result.OptionCost` in `Calculate`. -/
def optionCostOf (inp : Input) : ℚ :=
  roundMoney (inp.ExercisedShares * inp.ExercisePrice)

/-- `result.TaxableGain` in `Calculate`. -/
def taxableGainOf (inp : Input) : ℚ :=
  roundMoney ((inp.FMV - inp.ExercisePrice) * inp.ExercisedShares)

/-- `result.FederalTax` in `Calculate`. -/
def federalTaxOf (cfg : Config) (inp : Input) : ℚ :=
  roundMoney (taxableGainOf inp * cfg.taxRates.Federal)

/-- `result.MedicareTax` in `Calculate`. -/
def medicareTaxOf (cfg : Config) (inp : Input) : ℚ :=
  roundMoney (taxableGainOf inp * cfg.taxRates.Medicare)

/-- `result.SocialSecTax` in `Calculate`. -/
def socialSecTaxOf (cfg : Config) (inp : Input) : ℚ :=
  roundMoney (taxableGainOf inp * cfg.taxRates.SocialSec)

/-- `result.StateTax` in `Calculate`. -/
def stateTaxOf (cfg : Config) (inp : Input) : ℚ :=
  roundMoney (taxableGainOf inp * cfg.taxRates.State)

/-- `result.LocalSDITax` in `Calculate`. -/
def localSDITaxOf (cfg : Config) (inp : Input) : ℚ :=
  roundMoney (taxableGainOf inp * cfg.taxRates.LocalSDI)

/-- `result.TotalTax` in `Calculate`: exact sum of the five rounded lines. -/
def totalTaxOf (cfg : Config) (inp : Input) : ℚ :=
  federalTaxOf cfg inp + medicareTaxOf cfg inp + socialSecTaxOf cfg inp +
    stateTaxOf cfg inp + localSDITaxOf cfg inp

/-- `baseLiability` in `Calculate`: cost basis + total tax + flat fee.
It is used only to seed the iteration. -/
def baseLiabilityOf (cfg : Config) (inp : Input) : ℚ :=
  optionCostOf inp + totalTaxOf cfg inp + cfg.brokerFees.FlatFee

/-- The initial loop guess in `Calculate`: `Ceil(baseLiability / FMV)` when
`FMV > 0`, otherwise the zero the variable was initialised with. -/
def seedSharesOf (cfg : Config) (inp : Input) : ℚ :=
  if 0 < inp.FMV then goCeil (baseLiabilityOf cfg inp / inp.FMV) else 0

/-- The full iteration of `Calculate`: 100 fuel steps from the seed. -/
def optionLoopOf (cfg : Config) (inp : Input) : ℚ × Option OptionRec :=
  optionLoop cfg (optionCostOf inp) (totalTaxOf cfg inp) inp.FMV 100
    (seedSharesOf cfg inp)

/-- `Calculate` from `config.go` (the option-exercise solver).  The four
loop-recorded fields keep their Go zero values when the loop never hits
its `break`. -/
def Calculate (cfg : Config) (inp : Input) : Result :=
  let rec0 := (optionLoopOf cfg inp).2.getD ⟨0, 0, 0, 0⟩
  { ExercisePrice := inp.ExercisePrice
    ExercisedShares := inp.ExercisedShares
    FMV := inp.FMV
    OptionCost := optionCostOf inp
    TaxableGain := taxableGainOf inp
    FederalTax := federalTaxOf cfg inp
    MedicareTax := medicareTaxOf cfg inp
    SocialSecTax := socialSecTaxOf cfg inp
    StateTax := stateTaxOf cfg inp
    LocalSDITax := localSDITaxOf cfg inp
    TotalTax := totalTaxOf cfg inp
    BrokerCommission := rec0.commission
    BrokerFees := rec0.fee
    TotalCosts := rec0.total
    SharesToSell := rec0.shares
    EstGrossProceeds := rec0.shares * inp.FMV
    Residual := rec0.shares * inp.FMV - rec0.total
    NetShares := inp.ExercisedShares - rec0.shares }

/-- The six loop-local quantities that `CalculateRSU` records into the
result when its iteration reaches the fixed point. -/
structure RSURec where
  shares : ℚ
  brokerCommission : ℚ
  flatFee : ℚ
  totalFees : ℚ
  totalCosts : ℚ
  estGrossProceeds : ℚ
deriving DecidableEq

/-- The iteration loop of `CalculateRSU`.  Each fuel step computes the
reporting-only gross proceeds of the retained shares, the commission with
its minimum-fee floor, the transaction costs including the flat fee
(re-added every iteration), the total cash required
`TotalTax + transactionCosts`, and the ceiling of `required / SalePrice`
as the new share count. -/
def rsuLoop (cfg : Config) (totalTax sharesReleased salePrice : ℚ) :
    Nat → ℚ → ℚ × Option RSURec
  | 0, sharesToSell => (sharesToSell, none)
  | fuel + 1, sharesToSell =>
    let grossProceeds := (sharesReleased - sharesToSell) * salePrice
    let commission := sharesToSell * cfg.brokerFees.CommissionRate
    let finalCommission := goMax commission cfg.brokerFees.MinimumFee
    let totalTransactionCosts := finalCommission + cfg.brokerFees.FlatFee
    let totalRequired := totalTax + totalTransactionCosts
    let newSharesToSell := goCeil (totalRequired / salePrice)
    if newSharesToSell = sharesToSell then
      (sharesToSell,
        some ⟨sharesToSell, finalCommission, cfg.brokerFees.FlatFee,
          totalTransactionCosts, totalRequired, grossProceeds⟩)
    else
      rsuLoop cfg totalTax sharesReleased salePrice fuel newSharesToSell

/-- `result.TaxableGain` in `CalculateRSU`: the full released value. -/
def rsuTaxableGainOf (inp : RSUInput) : ℚ :=
  roundMoney (inp.SharesReleased * inp.VestPrice)

/-- `result.FederalTax` in `CalculateRSU`. -/
def rsuFederalTaxOf (cfg : Config) (inp : RSUInput) : ℚ :=
  roundMoney (rsuTaxableGainOf inp * cfg.taxRates.Federal)

/-- `result.MedicareTax` in `CalculateRSU`. -/
def rsuMedicareTaxOf (cfg : Config) (inp : RSUInput) : ℚ :=
  roundMoney (rsuTaxableGainOf inp * cfg.taxRates.Medicare)

/-- `result.SocialSecTax` in `CalculateRSU`. -/
def rsuSocialSecTaxOf (cfg : Config) (inp : RSUInput) : ℚ :=
  roundMoney (rsuTaxableGainOf inp * cfg.taxRates.SocialSec)

/-- `result.StateTax` in `CalculateRSU`. -/
def rsuStateTaxOf (cfg : Config) (inp : RSUInput) : ℚ :=
  roundMoney (rsuTaxableGainOf inp * cfg.taxRates.State)

/-- `result.LocalSDITax` in `CalculateRSU`. -/
def rsuLocalSDITaxOf (cfg : Config) (inp : RSUInput) : ℚ :=
  roundMoney (rsuTaxableGainOf inp * cfg.taxRates.LocalSDI)

/-- `result.TotalTax` in `CalculateRSU`. -/
def rsuTotalTaxOf (cfg : Config) (inp : RSUInput) : ℚ :=
  rsuFederalTaxOf cfg inp + rsuMedicareTaxOf cfg inp + rsuSocialSecTaxOf cfg inp +
    rsuStateTaxOf cfg inp + rsuLocalSDITaxOf cfg inp

/-- The initial guess of `CalculateRSU`: `Ceil(totalTax / SalePrice)` when
`SalePrice > 0`, otherwise 0 (the flat fee is not folded into the seed). -/
def rsuSeedOf (cfg : Config) (inp : RSUInput) : ℚ :=
  if 0 < inp.SalePrice then goCeil (rsuTotalTaxOf cfg inp / inp.SalePrice) else 0

/-- The full iteration of `CalculateRSU`: 100 fuel steps from the seed. -/
def rsuLoopOf (cfg : Config) (inp : RSUInput) : ℚ × Option RSURec :=
  rsuLoop cfg (rsuTotalTaxOf cfg inp) inp.SharesReleased inp.SalePrice 100
    (rsuSeedOf cfg inp)

/-- `CalculateRSU` from the RSU solver source file.  The six loop-recorded
fields keep their Go zero values when the loop never hits its `break`;
`Residual` is computed from the loop-local share variable (not the
recorded field), mirroring the source. -/
def CalculateRSU (cfg : Config) (inp : RSUInput) : RSUResult :=
  let out := rsuLoopOf cfg inp
  let rec0 := out.2.getD ⟨0, 0, 0, 0, 0, 0⟩
  { SharesReleased := inp.SharesReleased
    VestPrice := inp.VestPrice
    SalePrice := inp.SalePrice
    TaxableGain := rsuTaxableGainOf inp
    FederalTax := rsuFederalTaxOf cfg inp
    MedicareTax := rsuMedicareTaxOf cfg inp
    SocialSecTax := rsuSocialSecTaxOf cfg inp
    StateTax := rsuStateTaxOf cfg inp
    LocalSDITax := rsuLocalSDITaxOf cfg inp
    TotalTax := rsuTotalTaxOf cfg inp
    BrokerCommission := rec0.brokerCommission
    FlatFee := rec0.flatFee
    TotalFees := rec0.totalFees
    TotalCosts := rec0.totalCosts
    SharesToSell := rec0.shares
    EstGrossProceeds := rec0.estGrossProceeds
    Residual := out.1 * inp.SalePrice - rec0.totalCosts
    NetShares := inp.SharesReleased - rec0.shares }

/-- `Calculator` from `config.go`: holds the bound configuration. -/
structure Calculator where
  config : Config
deriving DecidableEq

/-- `NewCalculator` from `config.go`. -/
def NewCalculator (cfg : Config) : Calculator := ⟨cfg⟩

/-- `GetConfig` from `config.go`. -/
def GetConfig (c : Calculator) : Config := c.config

/-- The pointer-receiver method `(*Calculator).Calculate`, embedded as a
state-passing function: its Go body reads `c.config` and never assigns to
it, so the receiver is returned unchanged. -/
def Calculator.calculate (c : Calculator) (inp : Input) : Calculator × Result :=
  (c, Calculate c.config inp)

/-- The pointer-receiver method `(*Calculator).CalculateRSU`, embedded as a
state-passing function: its Go body reads `c.config` and never assigns to
it, so the receiver is returned unchanged. -/
def Calculator.calculateRSU (c : Calculator) (inp : RSUInput) :
    Calculator × RSUResult :=
  (c, CalculateRSU c.config inp)

/-- `UpdateTaxRates` from `config.go`: replaces `c.config.TaxRates`. -/
def Calculator.updateTaxRates (c : Calculator) (rates : TaxRates) : Calculator :=
  ⟨{ taxRates := rates, brokerFees := c.config.brokerFees }⟩

/-- `UpdateBrokerFees` from `config.go`: replaces `c.config.BrokerFees`. -/
def Calculator.updateBrokerFees (c : Calculator) (fees : BrokerFees) : Calculator :=
  ⟨{ taxRates := c.config.taxRates, brokerFees := fees }⟩

/-- Errors of `FromCSV` (batch import), tagged by the `fmt.Errorf` call that
produces them: `headerErr` is "failed to read header", `rowErr` is
"failed to read row" (produced when `encoding/csv` reports
`ErrFieldCount`), and the malformed-field errors carry the offending
field. -/
inductive ParseErr where
  | headerErr : ParseErr
  | rowErr : ParseErr
  | priceErr : String → ParseErr
  | sharesErr : String → ParseErr
  | fmvErr : String → ParseErr
deriving DecidableEq

/-- The record-reading loop of `FromCSV`.  `encoding/csv` with its default
`FieldsPerRecord` locks the expected field count to that of the first
record read (the header), so a subsequent `reader.Read()` of a row with a
different field count returns `ErrFieldCount`, which the source's
`err != nil` branch turns into the fatal "failed to read row" error.
Rows passing that check are skipped when they have fewer than three
fields (`continue`); otherwise their three leading fields are parsed in
order, the first parse failure aborting the whole import; on success the
row's `Input` is appended and reading continues.  `parse` stands for
`strconv.ParseFloat` and `k` for the header's field count. -/
def fromRows (parse : String → Option ℚ) (k : Nat) :
    List (List String) → Except ParseErr (List Input)
  | [] => Except.ok []
  | r :: rs =>
    if r.length ≠ k then Except.error ParseErr.rowErr
    else if r.length < 3 then fromRows parse k rs
    else
      match parse (r.getD 0 "") with
      | none => Except.error (ParseErr.priceErr (r.getD 0 ""))
      | some p =>
        match parse (r.getD 1 "") with
        | none => Except.error (ParseErr.sharesErr (r.getD 1 ""))
        | some sh =>
          match parse (r.getD 2 "") with
          | none => Except.error (ParseErr.fmvErr (r.getD 2 ""))
          | some f =>
            Except.map (fun l => ⟨p, sh, f⟩ :: l) (fromRows parse k rs)

/-- `FromCSV` (batch import).  The `csv.Reader` is modelled as the list of
records of the non-blank input lines.  The header record is read first
(failing when there is none); its contents are discarded, but its field
count becomes the reader's `FieldsPerRecord` and so constrains every data
record processed by `fromRows`. -/
def FromCSV (parse : String → Option ℚ) (rows : List (List String)) :
    Except ParseErr (List Input) :=
  match rows with
  | [] => Except.error ParseErr.headerErr
  | hdr :: rest => fromRows parse hdr.length rest

/-- A data row that `FromCSV` consumes without aborting when the header
field count is `k`: it has exactly `k` fields, and is either skipped for
having fewer than three fields or has three parsable leading fields. -/
def rowOk (parse : String → Option ℚ) (k : Nat) (r : List String) : Bool :=
  decide (r.length = k) &&
    (decide (r.length < 3) ||
      ((parse (r.getD 0 "")).isSome && (parse (r.getD 1 "")).isSome &&
        (parse (r.getD 2 "")).isSome))

/-- The first parse error of a (three-or-more-field) data row, in the order
`FromCSV` checks the fields: exercise price, exercised shares, FMV. -/
def firstRowErr (parse : String → Option ℚ) (r : List String) : Option ParseErr :=
  match parse (r.getD 0 "") with
  | none => some (ParseErr.priceErr (r.getD 0 ""))
  | some _ =>
    match parse (r.getD 1 "") with
    | none => some (ParseErr.sharesErr (r.getD 1 ""))
    | some _ =>
      match parse (r.getD 2 "") with
      | none => some (ParseErr.fmvErr (r.getD 2 ""))
      | some _ => none

/-- Round-half-even of a rational, the tie-breaking Go's `strconv`
fixed-precision formatting applies to the exactly-represented value
(modelling `fmt.Sprintf` with a `%.Nf` verb). -/
def roundHalfEven (x : ℚ) : ℤ :=
  let f := ⌊x⌋
  let frac := x - (f : ℚ)
  if frac < 1/2 then f
  else if 1/2 < frac then f + 1
  else if f % 2 = 0 then f else f + 1

/-- Go `fmt.Sprintf` with verb `%.<prec>f`: sign, integer digits, and
exactly `prec` fraction digits of the rounded magnitude. -/
def fmtFixed (prec : Nat) (q : ℚ) : String :=
  let scaled := roundHalfEven (|q| * ((10 ^ prec : ℕ) : ℚ))
  let scaledN := scaled.toNat
  let ip := scaledN / 10 ^ prec
  let fp := scaledN % 10 ^ prec
  let fracStr := toString fp
  let padded := String.mk (List.replicate (prec - fracStr.length) '0') ++ fracStr
  let sign := if q < 0 then "-" else ""
  if prec = 0 then sign ++ toString ip else sign ++ toString ip ++ "." ++ padded

/-- The fixed header row written by `ToCSV`. -/
def toCSVHeader : List String :=
  ["Exercise Price", "Exercised Shares", "FMV", "Shares To Sell", "Net Shares",
    "Total Costs", "Est. Gross Proceeds", "Taxable Gain", "Total Tax",
    "Option Cost", "Broker Fees"]

/-- One data row written by `ToCSV`: the Sprintf verbs of the source are
`%.2f` for all money fields and for `ExercisedShares` and `FMV`, and
`%.4f` for `SharesToSell` and `NetShares`. -/
def resultRow (r : Result) : List String :=
  [fmtFixed 2 r.ExercisePrice,
    fmtFixed 2 r.ExercisedShares,
    fmtFixed 2 r.FMV,
    fmtFixed 4 r.SharesToSell,
    fmtFixed 4 r.NetShares,
    fmtFixed 2 r.TotalCosts,
    fmtFixed 2 r.EstGrossProceeds,
    fmtFixed 2 r.TaxableGain,
    fmtFixed 2 r.TotalTax,
    fmtFixed 2 r.OptionCost,
    fmtFixed 2 r.BrokerFees]

/-- `ToCSV` (batch export): the header row followed by one row per result,
in order. -/
def ToCSV (results : List Result) : List (List String) :=
  toCSVHeader :: results.map resultRow

/-- The zero `Result` (Go zero value), used as a `getD` placeholder. -/
def zeroResult : Result :=
  ⟨0, 0, 0, 0, 0, 0, 0, 0, 0, 0, 0, 0, 0, 0, 0, 0, 0, 0⟩

/-- The worked end-to-end option-exercise input: price 10.00, 100 shares,
FMV 50.00. -/
def inpC4 : Input := ⟨10, 100, 50⟩

/-- The default configuration with a non-zero (100.00) flat processing fee. -/
def cfgC1 : Config :=
  { defaultConfig with
      brokerFees := { CommissionRate := 3/100, MinimumFee := 25, FlatFee := 100 } }

/-- A configuration whose five tax rates are 20% each (rates are not
validated by the engine; they may legitimately sum to 1.0 and beyond). -/
def cfgC3 : Config := ⟨⟨1/5, 1/5, 1/5, 1/5, 1/5⟩, ⟨0, 0, 0⟩⟩

/-- A strictly positive option-exercise input on which `cfgC3` drives the
rounded liability negative. -/
def inpC3 : Input := ⟨9986/1000, 1, 1/1000⟩

/-- A configuration whose per-share commission rate (2.0) exceeds the share
price, so each extra share sold costs more than it raises. -/
def cfgC2 : Config := ⟨⟨0, 0, 0, 0, 0⟩, ⟨2, 0, 0⟩⟩

/-- An input on which `cfgC2` makes the option share-count iteration grow
without bound (no fixed point within 100 iterations). -/
def inpC2 : Input := ⟨1, 1, 1⟩

/-- An RSU analogue of `cfgC2` (federal rate 1 so the tax burden is
non-zero). -/
def cfgC2r : Config := ⟨⟨1, 0, 0, 0, 0⟩, ⟨2, 0, 0⟩⟩

/-- An RSU input on which `cfgC2r` makes the RSU iteration diverge. -/
def rsuInpC2 : RSUInput := ⟨1, 1, 1⟩

/-- An RSU input (100 shares released, vest and sale price 50.00) on which
the default-configuration iteration converges. -/
def rsuInpW : RSUInput := ⟨100, 50, 50⟩

/-- A concrete parse function standing for `strconv.ParseFloat`: it fails
exactly on the field "bad". -/
def parseW : String → Option ℚ := fun s => if s = "bad" then none else some 1

/-- A result whose `ExercisedShares` is the whole number 100. -/
def resC9 : Result := { zeroResult with ExercisedShares := 100 }

/-! ### Helper lemmas -/

theorem goRound_int (x : ℚ) : ∃ n : ℤ, goRound x = (n : ℚ) := by
  simp only [goRound]
  split
  · exact ⟨-⌊-x + 1/2⌋, by push_cast; ring⟩
  · exact ⟨⌊x + 1/2⌋, rfl⟩

theorem goRound_near (x : ℚ) : |x - goRound x| ≤ 1/2 := by
  simp only [goRound]
  split
  · have h1 : ((⌊-x + 1/2⌋ : ℤ) : ℚ) ≤ -x + 1/2 := Int.floor_le _
    have h2 : -x + 1/2 < ((⌊-x + 1/2⌋ : ℤ) : ℚ) + 1 := Int.lt_floor_add_one _
    rw [abs_le]
    constructor <;> linarith
  · have h1 : ((⌊x + 1/2⌋ : ℤ) : ℚ) ≤ x + 1/2 := Int.floor_le _
    have h2 : x + 1/2 < ((⌊x + 1/2⌋ : ℤ) : ℚ) + 1 := Int.lt_floor_add_one _
    rw [abs_le]
    constructor <;> linarith

theorem goRound_tie (x : ℚ) (h : |x - goRound x| = 1/2) :
    |goRound x| = |x| + 1/2 := by
  by_cases hx : x < 0
  · simp only [goRound, if_pos hx] at h ⊢
    have h1 : ((⌊-x + 1/2⌋ : ℤ) : ℚ) ≤ -x + 1/2 := Int.floor_le _
    have h2 : -x + 1/2 < ((⌊-x + 1/2⌋ : ℤ) : ℚ) + 1 := Int.lt_floor_add_one _
    have e : x - -((⌊-x + 1/2⌋ : ℤ) : ℚ) = x + ((⌊-x + 1/2⌋ : ℤ) : ℚ) := by ring
    rw [e] at h
    have h3 : x + ((⌊-x + 1/2⌋ : ℤ) : ℚ) = 1/2 := by
      rcases (abs_eq (by norm_num : (0:ℚ) ≤ 1/2)).1 h with h4 | h4
      · exact h4
      · linarith
    have hm : 0 < ((⌊-x + 1/2⌋ : ℤ) : ℚ) := by linarith
    rw [abs_neg, abs_of_pos hm, abs_of_neg hx]
    linarith
  · push_neg at hx
    simp only [goRound, if_neg (not_lt.2 hx)] at h ⊢
    have h1 : ((⌊x + 1/2⌋ : ℤ) : ℚ) ≤ x + 1/2 := Int.floor_le _
    have h2 : x + 1/2 < ((⌊x + 1/2⌋ : ℤ) : ℚ) + 1 := Int.lt_floor_add_one _
    have h3 : x - ((⌊x + 1/2⌋ : ℤ) : ℚ) = -(1/2) := by
      rcases (abs_eq (by norm_num : (0:ℚ) ≤ 1/2)).1 h with h4 | h4
      · linarith
      · exact h4
    have hn : 0 < ((⌊x + 1/2⌋ : ℤ) : ℚ) := by linarith
    rw [abs_of_pos hn, abs_of_nonneg hx]
    linarith

theorem optionLoop_inv (cfg : Config) (oc tt fmv : ℚ) :
    ∀ (fuel : ℕ) (s : ℚ) (out : ℚ × Option OptionRec),
      optionLoop cfg oc tt fmv fuel s = out →
      ∀ rec : OptionRec, out.2 = some rec →
        rec.commission = rec.shares * cfg.brokerFees.CommissionRate ∧
        rec.fee = goMax rec.commission cfg.brokerFees.MinimumFee ∧
        rec.total = oc + tt + rec.fee ∧
        rec.shares = goCeil (rec.total / fmv) ∧
        out.1 = rec.shares := by
  intro fuel
  induction fuel with
  | zero =>
    intro s out h rec hrec
    subst h
    simp [optionLoop] at hrec
  | succ n ih =>
    intro s out h rec hrec
    simp only [optionLoop] at h
    split at h
    · next hc =>
      subst h
      simp only [Option.some.injEq] at hrec
      subst hrec
      exact ⟨rfl, rfl, rfl, hc.symm, rfl⟩
    · exact ih _ out h rec hrec

theorem rsuLoop_inv (cfg : Config) (tt released salePrice : ℚ) :
    ∀ (fuel : ℕ) (s : ℚ) (out : ℚ × Option RSURec),
      rsuLoop cfg tt released salePrice fuel s = out →
      ∀ rec : RSURec, out.2 = some rec →
        rec.brokerCommission =
          goMax (rec.shares * cfg.brokerFees.CommissionRate) cfg.brokerFees.MinimumFee ∧
        rec.flatFee = cfg.brokerFees.FlatFee ∧
        rec.totalFees = rec.brokerCommission + cfg.brokerFees.FlatFee ∧
        rec.totalCosts = tt + rec.totalFees ∧
        rec.estGrossProceeds = (released - rec.shares) * salePrice ∧
        rec.shares = goCeil (rec.totalCosts / salePrice) ∧
        out.1 = rec.shares := by
  intro fuel
  induction fuel with
  | zero =>
    intro s out h rec hrec
    subst h
    simp [rsuLoop] at hrec
  | succ n ih =>
    intro s out h rec hrec
    simp only [rsuLoop] at h
    split at h
    · next hc =>
      subst h
      simp only [Option.some.injEq] at hrec
      subst hrec
      exact ⟨rfl, rfl, rfl, rfl, rfl, hc.symm, rfl⟩
    · exact ih _ out h rec hrec

/-! ### Claim theorems -/

section

attribute [local semireducible] Rat.mul Rat.add Rat.sub Rat.inv Rat.ofScientific

/-- C6: `roundMoney` rounds to the nearest hundredth with ties away from
zero; in particular `roundMoney 2.005 = 2.01` and
`roundMoney (-2.005) = -2.01`.  The general part: the result is an integer
number of hundredths, within 1/200 of the argument, and at an exact tie the
rounded magnitude exceeds the argument magnitude by 1/200 (away from
zero). -/
theorem C6_roundMoney_theorem :
    (∀ q : ℚ,
      (∃ n : ℤ, roundMoney q = (n : ℚ) / 100) ∧
      |q - roundMoney q| ≤ 1/200 ∧
      (|q - roundMoney q| = 1/200 → |roundMoney q| = |q| + 1/200)) ∧
    roundMoney (2005/1000) = 201/100 ∧
    roundMoney (-(2005/1000)) = -(201/100) := by
  refine ⟨fun q => ⟨?_, ?_, ?_⟩, by decide, by decide⟩
  · obtain ⟨n, hn⟩ := goRound_int (q * 100)
    refine ⟨n, ?_⟩
    simp only [roundMoney, hn]
  · have hnear := goRound_near (q * 100)
    have e : q - roundMoney q = (q * 100 - goRound (q * 100)) / 100 := by
      simp only [roundMoney]; ring
    have h100 : |(100:ℚ)| = 100 := by norm_num
    rw [e, abs_div, h100]
    linarith
  · intro h
    have e : q - roundMoney q = (q * 100 - goRound (q * 100)) / 100 := by
      simp only [roundMoney]; ring
    have h100 : |(100:ℚ)| = 100 := by norm_num
    rw [e, abs_div, h100] at h
    have h2 : |q * 100 - goRound (q * 100)| = 1/2 := by linarith
    have h3 := goRound_tie (q * 100) h2
    have e2 : roundMoney q = goRound (q * 100) / 100 := rfl
    rw [e2, abs_div, h100, h3, abs_mul, h100]
    ring

/-- C6 witness: the tie case realised at 2.005, where the distance to the
rounded value is exactly 1/200 and the rounding goes away from zero. -/
theorem C6_witness :
    |roundMoney (2005/1000)| = |(2005/1000 : ℚ)| + 1/200 :=
  (C6_roundMoney_theorem.1 (2005/1000)).2.2 (by decide)

/-- C7: for every configuration and input, each solver's result satisfies
`NetShares + SharesToSell = input shares` exactly (`ExercisedShares` for
the option variant, `SharesReleased` for the RSU variant). -/
theorem C7_netShares_theorem :
    (∀ (cfg : Config) (inp : Input),
      (Calculate cfg inp).NetShares + (Calculate cfg inp).SharesToSell =
        inp.ExercisedShares) ∧
    (∀ (cfg : Config) (inp : RSUInput),
      (CalculateRSU cfg inp).NetShares + (CalculateRSU cfg inp).SharesToSell =
        inp.SharesReleased) := by
  constructor
  · intro cfg inp
    simp only [Calculate]
    ring
  · intro cfg inp
    simp only [CalculateRSU]
    ring

/-- C10: the solvers never modify the `Calculator`'s bound configuration —
`GetConfig` is unchanged across `Calculate` and `CalculateRSU` — while
`UpdateTaxRates` and `UpdateBrokerFees` replace exactly their component of
the configuration. -/
theorem C10_config_theorem :
    (∀ (c : Calculator) (inp : Input),
      GetConfig (Calculator.calculate c inp).1 = GetConfig c) ∧
    (∀ (c : Calculator) (inp : RSUInput),
      GetConfig (Calculator.calculateRSU c inp).1 = GetConfig c) ∧
    (∀ (c : Calculator) (rates : TaxRates),
      GetConfig (Calculator.updateTaxRates c rates) =
        { taxRates := rates, brokerFees := (GetConfig c).brokerFees }) ∧
    (∀ (c : Calculator) (fees : BrokerFees),
      GetConfig (Calculator.updateBrokerFees c fees) =
        { taxRates := (GetConfig c).taxRates, brokerFees := fees }) :=
  ⟨fun _ _ => rfl, fun _ _ => rfl, fun _ _ => rfl, fun _ _ => rfl⟩

/-- C4: the worked end-to-end option-exercise example — exercise price
10.00, 100 shares, FMV 50.00 under the default configuration — yields
option cost 1000.00, taxable gain 4000.00, total tax 1186.00, 45 shares to
sell, total costs 2211.00, gross proceeds 2250.00, residual 39.00 and 55
net shares. -/
theorem C4_example_theorem :
    (Calculate defaultConfig inpC4).OptionCost = 1000 ∧
    (Calculate defaultConfig inpC4).TaxableGain = 4000 ∧
    (Calculate defaultConfig inpC4).TotalTax = 1186 ∧
    (Calculate defaultConfig inpC4).SharesToSell = 45 ∧
    (Calculate defaultConfig inpC4).TotalCosts = 2211 ∧
    (Calculate defaultConfig inpC4).EstGrossProceeds = 2250 ∧
    (Calculate defaultConfig inpC4).Residual = 39 ∧
    (Calculate defaultConfig inpC4).NetShares = 55 := by decide

/-- C1 (amended): in the option-exercise `Calculate`, the flat fee enters
only the pre-loop base liability used to seed the iteration; every
iteration's total liability is `optionCost + totalTax + appliedFee`
WITHOUT the flat fee, so the `TotalCosts` recorded at the fixed point
equals `optionCost + totalTax + max(sharesToSell × commissionRate,
minimumFee)`, with no flat-fee term. -/
theorem C1_totalCosts_theorem (cfg : Config) (inp : Input) (rec : OptionRec)
    (h : (optionLoopOf cfg inp).2 = some rec) :
    (Calculate cfg inp).TotalCosts =
      (Calculate cfg inp).OptionCost + (Calculate cfg inp).TotalTax +
        goMax ((Calculate cfg inp).SharesToSell * cfg.brokerFees.CommissionRate)
          cfg.brokerFees.MinimumFee := by
  obtain ⟨hc, hf, ht, -, -⟩ :=
    optionLoop_inv cfg (optionCostOf inp) (totalTaxOf cfg inp) inp.FMV 100
      (seedSharesOf cfg inp) (optionLoopOf cfg inp) rfl rec h
  have hT : (Calculate cfg inp).TotalCosts = rec.total := by simp [Calculate, h]
  have hS : (Calculate cfg inp).SharesToSell = rec.shares := by simp [Calculate, h]
  have hOC : (Calculate cfg inp).OptionCost = optionCostOf inp := rfl
  have hTT : (Calculate cfg inp).TotalTax = totalTaxOf cfg inp := rfl
  rw [hT, hS, hOC, hTT, ht, hf, hc]

/-- C1 witness: with a 100.00 flat fee on the worked example the iteration
converges and the recorded total liability satisfies the flat-fee-free
formula. -/
theorem C1_witness :
    (Calculate cfgC1 inpC4).TotalCosts =
      (Calculate cfgC1 inpC4).OptionCost + (Calculate cfgC1 inpC4).TotalTax +
        goMax ((Calculate cfgC1 inpC4).SharesToSell * cfgC1.brokerFees.CommissionRate)
          cfgC1.brokerFees.MinimumFee :=
  C1_totalCosts_theorem cfgC1 inpC4 ⟨45, 135/100, 25, 2211⟩ (by decide)

/-- C1 counterexample: with a 100.00 flat fee on the worked example the
recorded `TotalCosts` is 2211.00, while the claimed formula
`optionCost + totalTax + flatFee + appliedFee` gives 2311.00. -/
theorem C1_counterexample :
    (Calculate cfgC1 inpC4).TotalCosts = 2211 ∧
    (Calculate cfgC1 inpC4).OptionCost + (Calculate cfgC1 inpC4).TotalTax +
        cfgC1.brokerFees.FlatFee +
        goMax ((Calculate cfgC1 inpC4).SharesToSell * cfgC1.brokerFees.CommissionRate)
          cfgC1.brokerFees.MinimumFee = 2311 ∧
    (2211 : ℚ) ≠ 2311 := by decide

/-- C2 (amended): when the share-count loop reaches no fixed point within
100 iterations, both solvers return silently, but the loop-recorded result
fields (`SharesToSell`, commission, applied fee / total fees, total
liability) keep their zero initial values — the last computed loop values
are discarded, except that the RSU residual is still computed from the
diverged loop-local share count. -/
theorem C2_nonconvergence_theorem :
    (∀ (cfg : Config) (inp : Input), (optionLoopOf cfg inp).2 = none →
      (Calculate cfg inp).SharesToSell = 0 ∧
      (Calculate cfg inp).BrokerCommission = 0 ∧
      (Calculate cfg inp).BrokerFees = 0 ∧
      (Calculate cfg inp).TotalCosts = 0) ∧
    (∀ (cfg : Config) (inp : RSUInput), (rsuLoopOf cfg inp).2 = none →
      (CalculateRSU cfg inp).SharesToSell = 0 ∧
      (CalculateRSU cfg inp).BrokerCommission = 0 ∧
      (CalculateRSU cfg inp).TotalFees = 0 ∧
      (CalculateRSU cfg inp).TotalCosts = 0 ∧
      (CalculateRSU cfg inp).Residual = (rsuLoopOf cfg inp).1 * inp.SalePrice) := by
  constructor
  · intro cfg inp h
    refine ⟨?_, ?_, ?_, ?_⟩ <;> simp [Calculate, h]
  · intro cfg inp h
    refine ⟨?_, ?_, ?_, ?_, ?_⟩ <;> simp [CalculateRSU, h]

/-- C2 witness: concrete non-converging runs of both solvers (commission
rate 2.0 per share at price 1.00) on which the returned share count is the
zero value. -/
theorem C2_witness :
    (Calculate cfgC2 inpC2).SharesToSell = 0 ∧
    (CalculateRSU cfgC2r rsuInpC2).SharesToSell = 0 :=
  ⟨(C2_nonconvergence_theorem.1 cfgC2 inpC2 (by decide)).1,
   (C2_nonconvergence_theorem.2 cfgC2r rsuInpC2 (by decide)).1⟩

/-- C2 counterexample: on a non-converging input the loop variable ends at
2^101 - 1 shares, yet the returned result reports zero shares to sell and
zero total costs — not the last computed values. -/
theorem C2_counterexample :
    (optionLoopOf cfgC2 inpC2).2 = none ∧
    (optionLoopOf cfgC2 inpC2).1 = 2535301200456458802993406410751 ∧
    (Calculate cfgC2 inpC2).SharesToSell = 0 ∧
    (Calculate cfgC2 inpC2).TotalCosts = 0 := by decide

/-- C3 (amended): for every strictly positive input (any configuration),
`SharesToSell` is an integer-valued float and the fixed-point recheck
`ceil(TotalCosts / FMV) = SharesToSell` holds exactly at the returned
solution; `SharesToSell` is moreover non-negative whenever
`optionCost + totalTax + minimumFee ≥ 0` (true in particular for the
default configuration), though not for arbitrary tax-rate
configurations. -/
theorem C3_recheck_theorem (cfg : Config) (inp : Input)
    (_hp : 0 < inp.ExercisePrice) (_hs : 0 < inp.ExercisedShares)
    (hf : 0 < inp.FMV) :
    (∃ n : ℤ, (Calculate cfg inp).SharesToSell = (n : ℚ)) ∧
    goCeil ((Calculate cfg inp).TotalCosts / inp.FMV) =
      (Calculate cfg inp).SharesToSell ∧
    (0 ≤ (Calculate cfg inp).OptionCost + (Calculate cfg inp).TotalTax +
        cfg.brokerFees.MinimumFee →
      0 ≤ (Calculate cfg inp).SharesToSell) := by
  cases hout : (optionLoopOf cfg inp).2 with
  | none =>
    have hS : (Calculate cfg inp).SharesToSell = 0 := by simp [Calculate, hout]
    have hT : (Calculate cfg inp).TotalCosts = 0 := by simp [Calculate, hout]
    refine ⟨⟨0, by rw [hS]; norm_num⟩, ?_, fun _ => by rw [hS]⟩
    rw [hS, hT, zero_div]
    simp [goCeil]
  | some rec =>
    obtain ⟨hc, hfee, ht, hfix, -⟩ :=
      optionLoop_inv cfg (optionCostOf inp) (totalTaxOf cfg inp) inp.FMV 100
        (seedSharesOf cfg inp) (optionLoopOf cfg inp) rfl rec hout
    have hS : (Calculate cfg inp).SharesToSell = rec.shares := by
      simp [Calculate, hout]
    have hT : (Calculate cfg inp).TotalCosts = rec.total := by
      simp [Calculate, hout]
    have hOC : (Calculate cfg inp).OptionCost = optionCostOf inp := rfl
    have hTT : (Calculate cfg inp).TotalTax = totalTaxOf cfg inp := rfl
    refine ⟨⟨⌈rec.total / inp.FMV⌉, by rw [hS, hfix]; rfl⟩, ?_, ?_⟩
    · rw [hS, hT]
      exact hfix.symm
    · intro h0
      rw [hOC, hTT] at h0
      have hfee2 : cfg.brokerFees.MinimumFee ≤ rec.fee := by
        rw [hfee]; exact le_max_right _ _
      have htot : 0 ≤ rec.total := by rw [ht]; linarith
      rw [hS, hfix, goCeil]
      have hceil : 0 ≤ ⌈rec.total / inp.FMV⌉ :=
        Int.ceil_nonneg (div_nonneg htot hf.le)
      exact_mod_cast hceil

/-- C3 witness: the non-negativity side condition and the recheck realised
on the worked example under the default configuration. -/
theorem C3_witness :
    (∃ n : ℤ, (Calculate defaultConfig inpC4).SharesToSell = (n : ℚ)) ∧
    goCeil ((Calculate defaultConfig inpC4).TotalCosts / inpC4.FMV) =
      (Calculate defaultConfig inpC4).SharesToSell ∧
    (0 ≤ (Calculate defaultConfig inpC4).OptionCost +
        (Calculate defaultConfig inpC4).TotalTax +
        defaultConfig.brokerFees.MinimumFee →
      0 ≤ (Calculate defaultConfig inpC4).SharesToSell) :=
  C3_recheck_theorem defaultConfig inpC4 (by decide) (by decide) (by decide)

/-- C3 counterexample: a strictly positive input (price 9.986, 1 share, FMV
0.001) under five 20% tax rates and zero fees, on which `Calculate`
converges to `SharesToSell = -10`, a negative share count. -/
theorem C3_counterexample :
    (0 < inpC3.ExercisePrice ∧ 0 < inpC3.ExercisedShares ∧ 0 < inpC3.FMV) ∧
    (Calculate cfgC3 inpC3).SharesToSell = -10 := by decide

/-- C5: at the recorded fixed point of `CalculateRSU`, the gross proceeds
are those of the retained shares `(released - n) × salePrice` (reporting
only), the recorded liability is `totalTax + max(n × commissionRate,
minimumFee) + flatFee` with the flat fee re-added every iteration (the
fixed point solves the flat-fee-inclusive equation), and the residual is
`n × salePrice - TotalCosts`. -/
theorem C5_rsu_fixedPoint_theorem (cfg : Config) (inp : RSUInput) (rec : RSURec)
    (h : (rsuLoopOf cfg inp).2 = some rec) :
    (CalculateRSU cfg inp).EstGrossProceeds =
      (inp.SharesReleased - (CalculateRSU cfg inp).SharesToSell) * inp.SalePrice ∧
    (CalculateRSU cfg inp).TotalCosts =
      (CalculateRSU cfg inp).TotalTax +
        goMax ((CalculateRSU cfg inp).SharesToSell * cfg.brokerFees.CommissionRate)
          cfg.brokerFees.MinimumFee + cfg.brokerFees.FlatFee ∧
    (CalculateRSU cfg inp).SharesToSell =
      goCeil ((CalculateRSU cfg inp).TotalCosts / inp.SalePrice) ∧
    (CalculateRSU cfg inp).Residual =
      (CalculateRSU cfg inp).SharesToSell * inp.SalePrice -
        (CalculateRSU cfg inp).TotalCosts := by
  obtain ⟨hbc, hff, htf, htc, hgp, hfix, hout1⟩ :=
    rsuLoop_inv cfg (rsuTotalTaxOf cfg inp) inp.SharesReleased inp.SalePrice 100
      (rsuSeedOf cfg inp) (rsuLoopOf cfg inp) rfl rec h
  have hS : (CalculateRSU cfg inp).SharesToSell = rec.shares := by
    simp [CalculateRSU, h]
  have hT : (CalculateRSU cfg inp).TotalCosts = rec.totalCosts := by
    simp [CalculateRSU, h]
  have hG : (CalculateRSU cfg inp).EstGrossProceeds = rec.estGrossProceeds := by
    simp [CalculateRSU, h]
  have hR : (CalculateRSU cfg inp).Residual =
      (rsuLoopOf cfg inp).1 * inp.SalePrice - rec.totalCosts := by
    simp [CalculateRSU, h]
  have hTT : (CalculateRSU cfg inp).TotalTax = rsuTotalTaxOf cfg inp := rfl
  refine ⟨?_, ?_, ?_, ?_⟩
  · rw [hG, hS, hgp]
  · rw [hT, hS, hTT, htc, htf, hbc]
    ring
  · rw [hS, hT]
    exact hfix
  · rw [hR, hS, hT, hout1]

/-- C5 witness: the default configuration on 100 released shares at vest
and sale price 50.00 converges to 31 shares, realising all four recorded
fixed-point identities. -/
theorem C5_witness :
    (CalculateRSU defaultConfig rsuInpW).EstGrossProceeds =
      (rsuInpW.SharesReleased - (CalculateRSU defaultConfig rsuInpW).SharesToSell) *
        rsuInpW.SalePrice ∧
    (CalculateRSU defaultConfig rsuInpW).TotalCosts =
      (CalculateRSU defaultConfig rsuInpW).TotalTax +
        goMax ((CalculateRSU defaultConfig rsuInpW).SharesToSell *
            defaultConfig.brokerFees.CommissionRate)
          defaultConfig.brokerFees.MinimumFee + defaultConfig.brokerFees.FlatFee ∧
    (CalculateRSU defaultConfig rsuInpW).SharesToSell =
      goCeil ((CalculateRSU defaultConfig rsuInpW).TotalCosts / rsuInpW.SalePrice) ∧
    (CalculateRSU defaultConfig rsuInpW).Residual =
      (CalculateRSU defaultConfig rsuInpW).SharesToSell * rsuInpW.SalePrice -
        (CalculateRSU defaultConfig rsuInpW).TotalCosts :=
  C5_rsu_fixedPoint_theorem defaultConfig rsuInpW ⟨31, 25, 0, 25, 3015/2, 3450⟩
    (by decide)

end

theorem fromRows_cons_err (parse : String → Option ℚ) (k : Nat)
    (r : List String) (post : List (List String)) (e : ParseErr)
    (hk : r.length = k) (hlen : ¬ r.length < 3)
    (herr : firstRowErr parse r = some e) :
    fromRows parse k (r :: post) = Except.error e := by
  simp only [firstRowErr] at herr
  simp only [fromRows, if_neg (not_not_intro hk), if_neg hlen]
  cases hp0 : parse (r.getD 0 "") with
  | none =>
    simp only [hp0] at herr ⊢
    simp only [Option.some.injEq] at herr
    rw [herr]
  | some p0 =>
    simp only [hp0] at herr ⊢
    cases hp1 : parse (r.getD 1 "") with
    | none =>
      simp only [hp1] at herr ⊢
      simp only [Option.some.injEq] at herr
      rw [herr]
    | some p1 =>
      simp only [hp1] at herr ⊢
      cases hp2 : parse (r.getD 2 "") with
      | none =>
        simp only [hp2] at herr ⊢
        simp only [Option.some.injEq] at herr
        rw [herr]
      | some p2 =>
        simp only [hp2] at herr
        exact Option.noConfusion herr

theorem fromRows_append_short (parse : String → Option ℚ) (k : Nat)
    (pre : List (List String)) (r : List String) (post : List (List String))
    (hk : r.length = k) (hr : r.length < 3) :
    fromRows parse k (pre ++ r :: post) = fromRows parse k (pre ++ post) := by
  induction pre with
  | nil =>
    simp only [List.nil_append]
    simp only [fromRows, if_neg (not_not_intro hk), if_pos hr]
  | cons x xs ih =>
    simp only [List.cons_append, fromRows, List.append_eq]
    rw [ih]

theorem fromRows_append_ok (parse : String → Option ℚ) (k : Nat) :
    ∀ (pre rest : List (List String)) (e : ParseErr),
      (∀ x ∈ pre, rowOk parse k x = true) →
      fromRows parse k rest = Except.error e →
      fromRows parse k (pre ++ rest) = Except.error e := by
  intro pre
  induction pre with
  | nil =>
    intro rest e _ htail
    rwa [List.nil_append]
  | cons x xs ih =>
    intro rest e hok htail
    have hx : rowOk parse k x = true := hok x (List.mem_cons_self x xs)
    have hxs : ∀ y ∈ xs, rowOk parse k y = true := fun y hy =>
      hok y (List.mem_cons_of_mem x hy)
    have ihh := ih rest e hxs htail
    rw [List.cons_append]
    simp only [rowOk, Bool.and_eq_true, Bool.or_eq_true,
      decide_eq_true_eq] at hx
    obtain ⟨hxk, hx2⟩ := hx
    by_cases hxlen : x.length < 3
    · simp only [fromRows, if_neg (not_not_intro hxk), if_pos hxlen]
      exact ihh
    · rcases hx2 with h | h
      · exact absurd h hxlen
      · obtain ⟨⟨h0, h1⟩, h2⟩ := h
        obtain ⟨p0, hp0⟩ := Option.isSome_iff_exists.1 h0
        obtain ⟨p1, hp1⟩ := Option.isSome_iff_exists.1 h1
        obtain ⟨p2, hp2⟩ := Option.isSome_iff_exists.1 h2
        simp only [fromRows, if_neg (not_not_intro hxk), if_neg hxlen,
          hp0, hp1, hp2, List.append_eq]
        rw [ihh]
        rfl

/-- C8 (amended): in `FromCSV` the header row's contents are discarded
(equal-width headers give identical results) but its field count becomes
the reader's expected field count: when every earlier row is consumable,
a data row of a different width aborts the import with the
"failed to read row" error; a data row matching a header width smaller
than three is silently skipped; and when every earlier row is consumable,
a full-width row whose first malformed numeric field yields error `e`
aborts the whole import with exactly that first error — no partial list
is returned. -/
theorem C8_fromCSV_theorem :
    (∀ (parse : String → Option ℚ) (h1 h2 : List String)
        (rows : List (List String)),
      h1.length = h2.length →
      FromCSV parse (h1 :: rows) = FromCSV parse (h2 :: rows)) ∧
    (∀ (parse : String → Option ℚ) (hdr : List String)
        (pre : List (List String)) (r : List String) (post : List (List String)),
      (∀ x ∈ pre, rowOk parse hdr.length x = true) →
      r.length ≠ hdr.length →
      FromCSV parse (hdr :: (pre ++ r :: post)) =
        Except.error ParseErr.rowErr) ∧
    (∀ (parse : String → Option ℚ) (hdr : List String)
        (pre : List (List String)) (r : List String) (post : List (List String)),
      r.length = hdr.length → hdr.length < 3 →
      FromCSV parse (hdr :: (pre ++ r :: post)) =
        FromCSV parse (hdr :: (pre ++ post))) ∧
    (∀ (parse : String → Option ℚ) (hdr : List String)
        (pre : List (List String)) (r : List String) (post : List (List String))
        (e : ParseErr),
      (∀ x ∈ pre, rowOk parse hdr.length x = true) →
      r.length = hdr.length → ¬ r.length < 3 →
      firstRowErr parse r = some e →
      FromCSV parse (hdr :: (pre ++ r :: post)) = Except.error e) := by
  refine ⟨fun parse h1 h2 rows hlen => ?_,
    fun parse hdr pre r post hok hne => ?_,
    fun parse hdr pre r post hk hshort => ?_,
    fun parse hdr pre r post e hok hk hlen herr => ?_⟩
  · show fromRows parse h1.length rows = fromRows parse h2.length rows
    rw [hlen]
  · refine fromRows_append_ok parse hdr.length pre (r :: post) _ hok ?_
    simp only [fromRows, if_pos hne]
  · exact fromRows_append_short parse hdr.length pre r post hk
      (by rw [hk]; exact hshort)
  · exact fromRows_append_ok parse hdr.length pre (r :: post) e hok
      (fromRows_cons_err parse hdr.length r post e hk hlen herr)

/-- C8 witness: concrete imports through a parse function failing exactly
on the field "bad" — equal-width headers with different contents give
identical results, a one-field row under a three-field header aborts the
import, a two-field row under a two-field header is skipped, and a bad
first field of a full-width row aborts with its parse error. -/
theorem C8_witness :
    FromCSV parseW [["Header A", "B", "C"], ["1", "2", "3"]] =
      FromCSV parseW [["Header Z", "Q", "R"], ["1", "2", "3"]] ∧
    FromCSV parseW [["A", "B", "C"], ["1", "2", "3"], ["x"]] =
      Except.error ParseErr.rowErr ∧
    FromCSV parseW [["H", "K"], ["a", "b"], ["c", "d"]] =
      FromCSV parseW [["H", "K"], ["c", "d"]] ∧
    FromCSV parseW [["A", "B", "C"], ["1", "2", "3"], ["bad", "5", "6"]] =
      Except.error (ParseErr.priceErr "bad") :=
  ⟨C8_fromCSV_theorem.1 parseW ["Header A", "B", "C"] ["Header Z", "Q", "R"]
     [["1", "2", "3"]] (by decide),
   C8_fromCSV_theorem.2.1 parseW ["A", "B", "C"] [["1", "2", "3"]] ["x"] []
     (by decide) (by decide),
   C8_fromCSV_theorem.2.2.1 parseW ["H", "K"] [] ["a", "b"] [["c", "d"]]
     (by decide) (by decide),
   C8_fromCSV_theorem.2.2.2 parseW ["A", "B", "C"] [["1", "2", "3"]]
     ["bad", "5", "6"] [] (ParseErr.priceErr "bad") (by decide) (by decide)
     (by decide) (by decide)⟩

/-- C8 counterexample: under a three-field header, the one-field data row
["x"] is NOT silently skipped — the import aborts with the
"failed to read row" error (`encoding/csv` field-count mismatch), unlike
the same import without that row, which succeeds. -/
theorem C8_counterexample :
    (["x"] : List String).length < 3 ∧
    FromCSV parseW [["A", "B", "C"], ["x"], ["1", "2", "3"]] =
      Except.error ParseErr.rowErr ∧
    FromCSV parseW [["A", "B", "C"], ["1", "2", "3"]] =
      Except.ok [⟨1, 1, 1⟩] :=
  ⟨by decide, rfl, rfl⟩

theorem map_resultRow_getD :
    ∀ (l : List Result) (i : ℕ), i < l.length →
      (l.map resultRow).getD i [] = resultRow (l.getD i zeroResult) := by
  intro l
  induction l with
  | nil => intro i hi; simp at hi
  | cons x xs ih =>
    intro i hi
    cases i with
    | zero => rfl
    | succ n =>
      simp only [List.map_cons, List.getD_cons_succ]
      refine ih n ?_
      simp only [List.length_cons] at hi
      omega

/-- C9 (amended): `ToCSV` writes exactly the eleven-column header, followed
by one row per result in which the money fields, `ExercisedShares` and
`FMV` are formatted to two decimal places and only `SharesToSell` and
`NetShares` to four. -/
theorem C9_toCSV_theorem :
    (∀ rs : List Result, (ToCSV rs).length = rs.length + 1) ∧
    (∀ rs : List Result, (ToCSV rs).getD 0 [] =
      ["Exercise Price", "Exercised Shares", "FMV", "Shares To Sell",
        "Net Shares", "Total Costs", "Est. Gross Proceeds", "Taxable Gain",
        "Total Tax", "Option Cost", "Broker Fees"]) ∧
    (∀ (rs : List Result) (i : ℕ), i < rs.length →
      (ToCSV rs).getD (i+1) [] =
        [fmtFixed 2 (rs.getD i zeroResult).ExercisePrice,
         fmtFixed 2 (rs.getD i zeroResult).ExercisedShares,
         fmtFixed 2 (rs.getD i zeroResult).FMV,
         fmtFixed 4 (rs.getD i zeroResult).SharesToSell,
         fmtFixed 4 (rs.getD i zeroResult).NetShares,
         fmtFixed 2 (rs.getD i zeroResult).TotalCosts,
         fmtFixed 2 (rs.getD i zeroResult).EstGrossProceeds,
         fmtFixed 2 (rs.getD i zeroResult).TaxableGain,
         fmtFixed 2 (rs.getD i zeroResult).TotalTax,
         fmtFixed 2 (rs.getD i zeroResult).OptionCost,
         fmtFixed 2 (rs.getD i zeroResult).BrokerFees]) := by
  refine ⟨fun rs => ?_, fun rs => rfl, fun rs i hi => ?_⟩
  · simp [ToCSV]
  · show (toCSVHeader :: rs.map resultRow).getD (i+1) [] = _
    rw [List.getD_cons_succ, map_resultRow_getD rs i hi]
    rfl

/-- C9 witness: the singleton batch of the zero result realises the
per-row formatting identity. -/
theorem C9_witness :
    (ToCSV [zeroResult]).getD 1 [] =
      [fmtFixed 2 (([zeroResult] : List Result).getD 0 zeroResult).ExercisePrice,
       fmtFixed 2 (([zeroResult] : List Result).getD 0 zeroResult).ExercisedShares,
       fmtFixed 2 (([zeroResult] : List Result).getD 0 zeroResult).FMV,
       fmtFixed 4 (([zeroResult] : List Result).getD 0 zeroResult).SharesToSell,
       fmtFixed 4 (([zeroResult] : List Result).getD 0 zeroResult).NetShares,
       fmtFixed 2 (([zeroResult] : List Result).getD 0 zeroResult).TotalCosts,
       fmtFixed 2 (([zeroResult] : List Result).getD 0 zeroResult).EstGrossProceeds,
       fmtFixed 2 (([zeroResult] : List Result).getD 0 zeroResult).TaxableGain,
       fmtFixed 2 (([zeroResult] : List Result).getD 0 zeroResult).TotalTax,
       fmtFixed 2 (([zeroResult] : List Result).getD 0 zeroResult).OptionCost,
       fmtFixed 2 (([zeroResult] : List Result).getD 0 zeroResult).BrokerFees] :=
  C9_toCSV_theorem.2.2 [zeroResult] 0 (by decide)

section

attribute [local semireducible] Rat.mul Rat.add Rat.sub Rat.inv Rat.ofScientific

/-- C9 counterexample: for a result with 100 exercised shares, the
`Exercised Shares` cell reads "100.00" (two decimal places), not the
four-decimal rendering "100.0000" the claim requires for every
share-count field. -/
theorem C9_counterexample :
    ((ToCSV [resC9]).getD 1 []).getD 1 "" = "100.00" ∧
    fmtFixed 4 resC9.ExercisedShares = "100.0000" ∧
    ((ToCSV [resC9]).getD 1 []).getD 1 "" ≠ fmtFixed 4 resC9.ExercisedShares := by
  decide

end

end STC
